import Mathlib

/-!
Verification of the transaction-extractor repository.

The core under verification is `TransactionParserService`
(backend/src/services/transaction-parser.service.ts): a heuristic
regex-based parser turning free text into a structured transaction, and
`TransactionService.getTransactions` (backend/src/services/transaction.service.ts):
cursor pagination over stored records.

The embedding works over `List Char` (JavaScript strings; all inputs of
interest are BMP code points, where JS code-unit length and code-point
length agree).  JavaScript regular expressions are embedded by a small
backtracking engine (`matchR`) whose alternation is ordered and whose
quantifiers are greedy, exactly as in ECMAScript; each regex literal of
the source is transliterated into an `RE` term.  JS numbers are modelled
by `ℚ` (every claim in scope depends only on order and sign, which the
binary floating point values preserve for the decimal literals involved),
and `Date` objects by an explicit `JsDate` with the ECMAScript validity
(non-NaN) check.
-/

set_option maxRecDepth 8000

/-! ## JavaScript character and string primitives -/

/-- The ECMAScript `\s` class (WhiteSpace and LineTerminator code points). -/
def jsWsp (c : Char) : Bool :=
  let n := c.toNat
  n = 9 || n = 10 || n = 11 || n = 12 || n = 13 || n = 32 || n = 160 || n = 5760 ||
  (8192 ≤ n && n ≤ 8202) || n = 8232 || n = 8233 || n = 8239 || n = 8287 ||
  n = 12288 || n = 65279

/-- JS `String.prototype.trim`: strip `\s` characters from both ends. -/
def jsTrim (l : List Char) : List Char :=
  ((l.dropWhile jsWsp).reverse.dropWhile jsWsp).reverse

/-- JS `String.prototype.toLowerCase`, restricted to the ASCII range
(the only case-carrying characters the parser's keywords involve). -/
def lowerL (l : List Char) : List Char := l.map Char.toLower

/-- Whether `needle` occurs at the head of `hay`. -/
def headSeq : List Char → List Char → Bool
  | [], _ => true
  | _ :: _, [] => false
  | a :: as, b :: bs => a = b && headSeq as bs

/-- JS `String.prototype.includes`: substring occurrence test. -/
def hasSeq (needle : List Char) : List Char → Bool
  | [] => headSeq needle []
  | c :: t => headSeq needle (c :: t) || hasSeq needle t

/-- Value of a decimal digit character. -/
def digitVal (c : Char) : Nat := c.toNat - 48

/-- JS `parseInt(s, 10)` on an all-digit string. -/
def parseNatDigits (l : List Char) : Nat :=
  l.foldl (fun a c => 10 * a + digitVal c) 0

/-- JS `.replace(/,/g, '')` on a captured numeric string. -/
def stripCommas (l : List Char) : List Char := l.filter (fun c => c ≠ ',')

/-- The unsigned part of JS `parseFloat`: an integer part and an optional
`.`-separated fraction. -/
def parseFloatCore (l : List Char) : ℚ :=
  match l.dropWhile Char.isDigit with
  | '.' :: fracRest =>
    (parseNatDigits (l.takeWhile Char.isDigit) : ℚ) +
      (parseNatDigits (fracRest.takeWhile Char.isDigit) : ℚ) /
        (10 : ℚ) ^ (fracRest.takeWhile Char.isDigit).length
  | _ => (parseNatDigits (l.takeWhile Char.isDigit) : ℚ)

/-- JS `parseFloat` on the comma-stripped captures produced by the parser's
numeric patterns: an optional sign, an integer part, an optional fraction. -/
def parseFloatQ (l : List Char) : ℚ :=
  match l with
  | '-' :: rest => -(parseFloatCore rest)
  | '+' :: rest => parseFloatCore rest
  | _ => parseFloatCore l

/-! ## JavaScript `Date` model

`new Date(year, month, day)` is recorded symbolically together with its
constructor arguments; validity (the `!isNaN(d.getTime())` check of the
source) is computed by the ECMAScript `MakeDay`/`TimeClip` arithmetic. -/

inductive JsDate where
  /-- `new Date(year, month, day)` with the given (unnormalised) arguments. -/
  | ymd (year month day : Int)
  /-- `new Date()`: the current date at call time (always a valid date). -/
  | now
  /-- An Invalid Date (NaN time value). -/
  | nanDate
deriving DecidableEq, Repr

/-- ECMAScript `DayFromYear`. -/
def dayFromYear (y : Int) : Int :=
  365 * (y - 1970) + (y - 1969) / 4 - (y - 1901) / 100 + (y - 1601) / 400

/-- Gregorian leap-year test (ECMAScript `DaysInYear` = 366). -/
def isLeapYear (y : Int) : Bool :=
  (y % 4 == 0 && y % 100 != 0) || y % 400 == 0

/-- Cumulative day count before 0-based month `m` (ECMAScript `DayWithinYear`
table), with the leap-day adjustment from March onwards. -/
def monthDaysBefore (leap : Bool) (m : Int) : Int :=
  (if m = 0 then 0 else if m = 1 then 31 else if m = 2 then 59 else
   if m = 3 then 90 else if m = 4 then 120 else if m = 5 then 151 else
   if m = 6 then 181 else if m = 7 then 212 else if m = 8 then 243 else
   if m = 9 then 273 else if m = 10 then 304 else 334) +
  (if leap && decide (2 ≤ m) then 1 else 0)

/-- ECMAScript `MakeDay(y, m, d)`: days since the epoch, with month overflow
carried into the year (divisors are positive, so Lean's `Int` division and
modulus agree with ECMAScript's floor and modulo). -/
def makeDay (y m d : Int) : Int :=
  let ym := y + m / 12
  let mn := m % 12
  dayFromYear ym + monthDaysBefore (isLeapYear ym) mn + (d - 1)

/-- The two-digit-year adjustment of the `Date(y, m, d)` constructor
(ECMAScript `MakeFullYear`). -/
def adjustedYear (y : Int) : Int := if 0 ≤ y ∧ y ≤ 99 then 1900 + y else y

/-- The source's date validity predicate
`data.date instanceof Date && !isNaN(data.date.getTime())`: a constructed
date is valid exactly when its time value survives ECMAScript `TimeClip`
(magnitude at most 8.64e15 milliseconds). -/
def isDateValid : JsDate → Bool
  | .ymd y m d =>
    decide ((makeDay (adjustedYear y) m d * 86400000).natAbs ≤ 8640000000000000)
  | .now => true
  | .nanDate => false

/-! ## A backtracking regex engine with ECMAScript semantics

`matchR fuel r s` lists every way `r` can match a prefix of `s`, as
(consumed length, captures) pairs, in ECMAScript backtracking priority
order: ordered alternation, greedy quantifiers.  The head of the list is
the match ECMAScript selects.  `fuel` only bounds recursion depth; every
use below supplies more fuel than any match can consume. -/

/-- Capture assignments: group number paired with the captured characters. -/
abbrev Caps := List (Nat × List Char)

inductive RE where
  /-- the empty pattern -/
  | eps
  /-- the `$` end anchor -/
  | eos
  /-- a literal character -/
  | chr (c : Char)
  /-- a character class -/
  | cls (p : Char → Bool)
  /-- concatenation -/
  | seq (a b : RE)
  /-- ordered alternation `a|b` -/
  | alt (a b : RE)
  /-- greedy option `a?` -/
  | opt (a : RE)
  /-- greedy Kleene star `a*` -/
  | star (a : RE)
  /-- greedy bounded repetition `a{lo,hi}` -/
  | rep (a : RE) (lo hi : Nat)
  /-- capturing group number `n` -/
  | group (n : Nat) (a : RE)

def matchR : Nat → RE → List Char → List (Nat × Caps)
  | 0, _, _ => []
  | _ + 1, .eps, _ => [(0, [])]
  | _ + 1, .eos, s => if s.isEmpty then [(0, [])] else []
  | _ + 1, .chr c, s =>
    match s with
    | x :: _ => if x = c then [(1, [])] else []
    | [] => []
  | _ + 1, .cls p, s =>
    match s with
    | x :: _ => if p x then [(1, [])] else []
    | [] => []
  | f + 1, .seq a b, s =>
    (matchR f a s).flatMap fun p1 =>
      (matchR f b (s.drop p1.1)).map fun p2 => (p1.1 + p2.1, p1.2 ++ p2.2)
  | f + 1, .alt a b, s => matchR f a s ++ matchR f b s
  | f + 1, .opt a, s => matchR f a s ++ [(0, [])]
  | f + 1, .star a, s =>
    ((matchR f a s).flatMap fun p1 =>
      if p1.1 = 0 then [] else
        (matchR f (.star a) (s.drop p1.1)).map fun p2 => (p1.1 + p2.1, p1.2 ++ p2.2))
    ++ [(0, [])]
  | f + 1, .rep a lo hi, s =>
    if hi = 0 then (if lo = 0 then [(0, [])] else [])
    else
      ((matchR f a s).flatMap fun p1 =>
        (matchR f (.rep a (lo - 1) (hi - 1)) (s.drop p1.1)).map fun p2 =>
          (p1.1 + p2.1, p1.2 ++ p2.2))
      ++ (if lo = 0 then [(0, [])] else [])
  | f + 1, .group k a, s =>
    (matchR f a s).map fun p => (p.1, (k, s.take p.1) :: p.2)

/-- The match ECMAScript selects when the pattern is tried at the start of
`s` (the supplied fuel exceeds any possible recursion depth). -/
def tryAt (r : RE) (s : List Char) : Option (Nat × Caps) :=
  (matchR (s.length + 1000) r s).head?

/-- JS `String.prototype.match` without `/g`: the leftmost position where
the pattern matches, with the match length and captures. -/
def findMatch (r : RE) (s : List Char) : Option (Nat × Nat × Caps) :=
  match s with
  | [] => (tryAt r []).map fun p => (0, p.1, p.2)
  | x :: t =>
    match tryAt r (x :: t) with
    | some p => some (0, p.1, p.2)
    | none => (findMatch r t).map fun p => (p.1 + 1, p.2.1, p.2.2)

/-- The string captured by group `k` (empty when the group is absent). -/
def getCap (caps : Caps) (k : Nat) : List Char :=
  match caps.find? (fun p => p.1 == k) with
  | some p => p.2
  | none => []

/-- All capturing groups of a pattern, with their bodies. -/
def allGroups : RE → List (Nat × RE)
  | .eps | .eos | .chr _ | .cls _ => []
  | .seq a b | .alt a b => allGroups a ++ allGroups b
  | .opt a | .star a => allGroups a
  | .rep a _ _ => allGroups a
  | .group k a => (k, a) :: allGroups a

/-- `cs` is a string that the pattern `b` can consume from the front of
some input (the shape of every string a capturing group with body `b` can
record). -/
def Produces (b : RE) (cs : List Char) : Prop :=
  ∃ f s n c, cs = s.take n ∧ (n, c) ∈ matchR f b s

/-- Whether group `k` participates in every successful match of the
pattern (it is on the mandatory spine: not under an option, star,
repetition, or a one-sided alternation). -/
def mandatoryGroup : RE → Nat → Bool
  | .seq a b, k => mandatoryGroup a k || mandatoryGroup b k
  | .alt a b, k => mandatoryGroup a k && mandatoryGroup b k
  | .group j a, k => (j == k) || mandatoryGroup a k
  | _, _ => false

/-- One step list of a global replace: fuel-indexed so that the kernel can
evaluate it (every pattern used in the source consumes at least one
character per match, so `s.length + 1` rounds of fuel always suffice). -/
def replaceAllF : Nat → RE → List Char → List Char → List Char
  | 0, _, _, s => s
  | f + 1, r, repl, s =>
    match findMatch r s with
    | none => s
    | some (i, n, _) =>
      if 0 < n then s.take i ++ repl ++ replaceAllF f r repl (s.drop (i + n))
      else s

/-- JS `String.prototype.replace` with the `/g` flag. -/
def replaceAll (r : RE) (repl s : List Char) : List Char :=
  replaceAllF (s.length + 1) r repl s

/-- JS `String.prototype.replace` without `/g`: first occurrence only. -/
def replaceFirst (r : RE) (repl s : List Char) : List Char :=
  match findMatch r s with
  | none => s
  | some (i, n, _) => s.take i ++ repl ++ s.drop (i + n)

/-! ### Pattern-building helpers -/

/-- A case-sensitive literal string. -/
def strE : List Char → RE
  | [] => .eps
  | [c] => .chr c
  | c :: rest => .seq (.chr c) (strE rest)

/-- A single character matched case-insensitively (`/i` flag); the argument
is given in lower case. -/
def charCI (c : Char) : RE := .cls (fun x => x.toLower = c)

/-- A case-insensitive literal string (`/i` flag). -/
def striE : List Char → RE
  | [] => .eps
  | [c] => charCI c
  | c :: rest => .seq (charCI c) (striE rest)

/-- `r+` as `r r*`. -/
def plusE (r : RE) : RE := .seq r (.star r)

/-- The `\d` class. -/
def digitE : RE := .cls Char.isDigit

/-- The `\s` class. -/
def wspE : RE := .cls jsWsp

/-- The `\w` class. -/
def wordE : RE := .cls (fun c => c.isAlphanum || c = '_')

/-- `[+-]?` -/
def signE : RE := .opt (.cls (fun c => c = '+' || c = '-'))

/-- `\d{1,3}(?:,\d{3})*(?:\.\d{2})?` -/
def numCore : RE :=
  .seq (.rep digitE 1 3)
    (.seq (.star (.seq (.chr ',') (.rep digitE 3 3)))
      (.opt (.seq (.chr '.') (.rep digitE 2 2))))

/-- `[+-]?\d{1,3}(?:,\d{3})*(?:\.\d{2})?` -/
def signedNum : RE := .seq signE numCore

/-- `\d{1,3}(?:,\d{3})+(?:\.\d{2})?` (comma groups required). -/
def commaNum : RE :=
  .seq (.rep digitE 1 3)
    (.seq (plusE (.seq (.chr ',') (.rep digitE 3 3)))
      (.opt (.seq (.chr '.') (.rep digitE 2 2))))

/-- `\d+(?:\.\d{2})?` -/
def plainNum : RE :=
  .seq (plusE digitE) (.opt (.seq (.chr '.') (.rep digitE 2 2)))

/-- `Jan|Feb|Mar|Apr|May|Jun|Jul|Aug|Sep|Oct|Nov|Dec` under `/i`. -/
def monthAlt : RE :=
  .alt (striE "jan".data) (.alt (striE "feb".data) (.alt (striE "mar".data)
    (.alt (striE "apr".data) (.alt (striE "may".data) (.alt (striE "jun".data)
    (.alt (striE "jul".data) (.alt (striE "aug".data) (.alt (striE "sep".data)
    (.alt (striE "oct".data) (.alt (striE "nov".data) (striE "dec".data)))))))))))

/-- The source's fixed month-name lookup (keys lower-cased, values 0-based). -/
def monthMap (l : List Char) : Option Nat :=
  if l = "jan".data then some 0 else if l = "feb".data then some 1 else
  if l = "mar".data then some 2 else if l = "apr".data then some 3 else
  if l = "may".data then some 4 else if l = "jun".data then some 5 else
  if l = "jul".data then some 6 else if l = "aug".data then some 7 else
  if l = "sep".data then some 8 else if l = "oct".data then some 9 else
  if l = "nov".data then some 10 else if l = "dec".data then some 11 else none

/-! ### The parser's regex literals, transliterated -/

/-- `/(?:Date:\s*)?(\d{1,2})\s+(Jan|Feb|Mar|Apr|May|Jun|Jul|Aug|Sep|Oct|Nov|Dec)\s+(\d{4})/i` -/
def datePattern1 : RE :=
  .seq (.opt (.seq (striE "date:".data) (.star wspE)))
    (.seq (.group 1 (.rep digitE 1 2))
      (.seq (plusE wspE)
        (.seq (.group 2 monthAlt)
          (.seq (plusE wspE) (.group 3 (.rep digitE 4 4))))))

/-- `/(\d{1,2})\/(\d{1,2})\/(\d{4})/` -/
def datePattern2 : RE :=
  .seq (.group 1 (.rep digitE 1 2))
    (.seq (.chr '/')
      (.seq (.group 2 (.rep digitE 1 2))
        (.seq (.chr '/') (.group 3 (.rep digitE 4 4)))))

/-- `/(\d{4})-(\d{1,2})-(\d{1,2})/` -/
def datePattern3 : RE :=
  .seq (.group 1 (.rep digitE 4 4))
    (.seq (.chr '-')
      (.seq (.group 2 (.rep digitE 1 2))
        (.seq (.chr '-') (.group 3 (.rep digitE 1 2)))))

/-- `/Amount:\s*([+-]?\d{1,3}(?:,\d{3})*(?:\.\d{2})?)/` -/
def amountPattern1 : RE :=
  .seq (strE "Amount:".data) (.seq (.star wspE) (.group 1 signedNum))

/-- `/₹\s*([+-]?\d{1,3}(?:,\d{3})*(?:\.\d{2})?)/` -/
def amountPattern2 : RE :=
  .seq (.chr '₹') (.seq (.star wspE) (.group 1 signedNum))

/-- `/([+-]?\d{1,3}(?:,\d{3})*(?:\.\d{2})?)\s*(?:debited|Dr)/i` -/
def debitPattern : RE :=
  .seq (.group 1 signedNum)
    (.seq (.star wspE) (.alt (striE "debited".data) (striE "dr".data)))

/-- `/\d{1,3}(?:,\d{3})*(?:\.\d{2})?/g` (only its first match is used). -/
def bareNumber : RE := numCore

/-- `/Balance\s+after\s+transaction:\s*/i` label head shared by the two
family-1 balance patterns. -/
def balLabel1 : RE :=
  .seq (striE "balance".data)
    (.seq (plusE wspE)
      (.seq (striE "after".data)
        (.seq (plusE wspE) (.seq (striE "transaction:".data) (.star wspE)))))

/-- `/Balance\s+after\s+transaction:\s*(\d{1,3}(?:,\d{3})+(?:\.\d{2})?)/i` -/
def balancePattern1a : RE := .seq balLabel1 (.group 1 commaNum)

/-- `/Balance\s+after\s+transaction:\s*(\d+(?:\.\d{2})?)/i` -/
def balancePattern1b : RE := .seq balLabel1 (.group 1 plainNum)

/-- `/Available\s+Balance\s*→\s*₹\s*/i` label head shared by the two
family-2 balance patterns. -/
def balLabel2 : RE :=
  .seq (striE "available".data)
    (.seq (plusE wspE)
      (.seq (striE "balance".data)
        (.seq (.star wspE)
          (.seq (.chr '→') (.seq (.star wspE) (.seq (.chr '₹') (.star wspE)))))))

/-- `/Available\s+Balance\s*→\s*₹\s*(\d{1,3}(?:,\d{3})+(?:\.\d{2})?)/i` -/
def balancePattern2a : RE := .seq balLabel2 (.group 1 commaNum)

/-- `/Available\s+Balance\s*→\s*₹\s*(\d+(?:\.\d{2})?)/i` -/
def balancePattern2b : RE := .seq balLabel2 (.group 1 plainNum)

/-- `/Bal\s+/i` label head shared by the two family-3 balance patterns. -/
def balLabel3 : RE := .seq (striE "bal".data) (plusE wspE)

/-- `/Bal\s+(\d{1,3}(?:,\d{3})+(?:\.\d{2})?)/i` -/
def balancePattern3a : RE := .seq balLabel3 (.group 1 commaNum)

/-- `/Bal\s+(\d+(?:\.\d{2})?)/i` -/
def balancePattern3b : RE := .seq balLabel3 (.group 1 plainNum)

/-! ### Description-stripping regex literals -/

/-- `/txn\w*\s*/gi` -/
def descTxn : RE := .seq (striE "txn".data) (.seq (.star wordE) (.star wspE))

/-- `/#\d+[-\d]*/g` -/
def descOrder : RE :=
  .seq (.chr '#') (.seq (plusE digitE) (.star (.cls (fun c => c = '-' || c.isDigit))))

/-- `/\d{1,2}\/\d{1,2}\/\d{4}/g` -/
def descDateSlash : RE :=
  .seq (.rep digitE 1 2)
    (.seq (.chr '/') (.seq (.rep digitE 1 2) (.seq (.chr '/') (.rep digitE 4 4))))

/-- `/\d{1,2}\s+(Jan|Feb|Mar|Apr|May|Jun|Jul|Aug|Sep|Oct|Nov|Dec)\s+\d{4}/gi` -/
def descDateName : RE :=
  .seq (.rep digitE 1 2)
    (.seq (plusE wspE)
      (.seq (.group 1 monthAlt) (.seq (plusE wspE) (.rep digitE 4 4))))

/-- `/\d{4}-\d{1,2}-\d{1,2}/g` -/
def descDateIso : RE :=
  .seq (.rep digitE 4 4)
    (.seq (.chr '-') (.seq (.rep digitE 1 2) (.seq (.chr '-') (.rep digitE 1 2))))

/-- `/Amount:\s*[+-]?\d{1,3}(?:,\d{3})*(?:\.\d{2})?/gi` -/
def descAmountLabel : RE :=
  .seq (striE "amount:".data) (.seq (.star wspE) signedNum)

/-- `/₹\s*[+-]?\d{1,3}(?:,\d{3})*(?:\.\d{2})?/g` -/
def descAmountRupee : RE := .seq (.chr '₹') (.seq (.star wspE) signedNum)

/-- `/[+-]?\d{1,3}(?:,\d{3})*(?:\.\d{2})?\s*(?:debited|credited|Dr|Cr)/gi` -/
def descAmountMarked : RE :=
  .seq signedNum
    (.seq (.star wspE)
      (.alt (striE "debited".data)
        (.alt (striE "credited".data) (.alt (striE "dr".data) (striE "cr".data)))))

/-- `/Balance\s+after\s+transaction:\s*\d{1,3}(?:,\d{3})*(?:\.\d{2})?/gi` -/
def descBalAfter : RE :=
  .seq (striE "balance".data)
    (.seq (plusE wspE)
      (.seq (striE "after".data)
        (.seq (plusE wspE)
          (.seq (striE "transaction:".data) (.seq (.star wspE) numCore)))))

/-- `/Available\s+Balance\s*→\s*₹\d{1,3}(?:,\d{3})*(?:\.\d{2})?/gi`
(note: no whitespace allowed between `₹` and the digits here). -/
def descBalAvail : RE :=
  .seq (striE "available".data)
    (.seq (plusE wspE)
      (.seq (striE "balance".data)
        (.seq (.star wspE)
          (.seq (.chr '→') (.seq (.star wspE) (.seq (.chr '₹') numCore))))))

/-- `/Bal\s+\d{1,3}(?:,\d{3})*(?:\.\d{2})?/gi` -/
def descBalShort : RE := .seq (striE "bal".data) (.seq (plusE wspE) numCore)

/-- `/Date:\s*/gi` -/
def descDateLabel : RE := .seq (striE "date:".data) (.star wspE)

/-- `/Description:\s*/gi` -/
def descDescLabel : RE := .seq (striE "description:".data) (.star wspE)

/-- `/\s+(Shopping|Food|Travel|Entertainment|Bills|Other)$/i` -/
def descCategory : RE :=
  .seq (plusE wspE)
    (.seq (.group 1
      (.alt (striE "shopping".data)
        (.alt (striE "food".data)
          (.alt (striE "travel".data)
            (.alt (striE "entertainment".data)
              (.alt (striE "bills".data) (striE "other".data)))))))
      .eos)

/-- `/\s+/g` -/
def wspPlusE : RE := plusE wspE

/-! ## The extractors (`TransactionParserService`) -/

/-- The captures of the first match of `r` in `t`, when `r` matches. -/
def matchCaps (r : RE) (t : List Char) : Option Caps :=
  (findMatch r t).map fun p => p.2.2

/-- The date built from a month-name pattern match: day and year via
`parseInt`, the month through the fixed lookup (the `none` fallback models
`new Date(year, undefined, day)`, an unreachable Invalid Date since the
regex only lets month names through). -/
def dateFromCaps1 (caps : Caps) : JsDate :=
  match monthMap (lowerL (getCap caps 2)) with
  | some m => .ymd (parseNatDigits (getCap caps 3)) m (parseNatDigits (getCap caps 1))
  | none => .nanDate

/-- `TransactionParserService.extractDate`: the three date patterns in
priority order, then the current-date fallback. -/
def extractDate (t : List Char) : JsDate :=
  match matchCaps datePattern1 t with
  | some caps => dateFromCaps1 caps
  | none =>
    match matchCaps datePattern2 t with
    | some caps =>
      .ymd (parseNatDigits (getCap caps 3))
        ((parseNatDigits (getCap caps 2) : Int) - 1)
        (parseNatDigits (getCap caps 1))
    | none =>
      match matchCaps datePattern3 t with
      | some caps =>
        .ymd (parseNatDigits (getCap caps 1))
          ((parseNatDigits (getCap caps 2) : Int) - 1)
          (parseNatDigits (getCap caps 3))
      | none => .now

/-- `TransactionParserService.extractAmount`: the three structured amount
patterns in priority order, then the first bare number, then 0. -/
def extractAmount (t : List Char) : ℚ :=
  match matchCaps amountPattern1 t with
  | some caps => parseFloatQ (stripCommas (getCap caps 1))
  | none =>
    match matchCaps amountPattern2 t with
    | some caps => parseFloatQ (stripCommas (getCap caps 1))
    | none =>
      match matchCaps debitPattern t with
      | some caps =>
        let v := parseFloatQ (stripCommas (getCap caps 1))
        if v < 0 then v else -v
      | none =>
        match findMatch bareNumber t with
        | some (i, n, _) => parseFloatQ (stripCommas ((t.drop i).take n))
        | none => 0

inductive TxnType where
  | debit
  | credit
deriving DecidableEq, Repr

/-- `TransactionParserService.determineType`. -/
def determineType (t : List Char) (amount : ℚ) : TxnType :=
  let lower := lowerL t
  if hasSeq "debited".data lower || hasSeq " dr ".data lower ||
     hasSeq " dr\n".data lower then .debit
  else if hasSeq "credited".data lower || hasSeq " cr ".data lower ||
     hasSeq " cr\n".data lower then .credit
  else if amount < 0 then .debit
  else .debit

/-- `TransactionParserService.extractDescription`: the stripping chain. -/
def extractDescription (t : List Char) : List Char :=
  let d := replaceAll descTxn [] t
  let d := replaceAll descOrder [] d
  let d := replaceAll descDateSlash [] d
  let d := replaceAll descDateName [] d
  let d := replaceAll descDateIso [] d
  let d := replaceAll descAmountLabel [] d
  let d := replaceAll descAmountRupee [] d
  let d := replaceAll descAmountMarked [] d
  let d := replaceAll descBalAfter [] d
  let d := replaceAll descBalAvail [] d
  let d := replaceAll descBalShort [] d
  let d := replaceAll descDateLabel [] d
  let d := replaceAll descDescLabel [] d
  let d := replaceAll (.chr '→') [] d
  let d := replaceAll (.chr '*') [' '] d
  let d := replaceFirst descCategory [] d
  let d := jsTrim (replaceAll wspPlusE [' '] d)
  if d.isEmpty then "Transaction".data else d

/-- `TransactionParserService.extractBalance`: the six balance sub-patterns
in their fixed order. -/
def extractBalance (t : List Char) : Option ℚ :=
  match matchCaps balancePattern1a t with
  | some caps => some (parseFloatQ (stripCommas (getCap caps 1)))
  | none =>
    match matchCaps balancePattern1b t with
    | some caps => some (parseFloatQ (stripCommas (getCap caps 1)))
    | none =>
      match matchCaps balancePattern2a t with
      | some caps => some (parseFloatQ (stripCommas (getCap caps 1)))
      | none =>
        match matchCaps balancePattern2b t with
        | some caps => some (parseFloatQ (stripCommas (getCap caps 1)))
        | none =>
          match matchCaps balancePattern3a t with
          | some caps => some (parseFloatQ (stripCommas (getCap caps 1)))
          | none =>
            match matchCaps balancePattern3b t with
            | some caps => some (parseFloatQ (stripCommas (getCap caps 1)))
            | none => none

/-- The four field-validity predicates of
`TransactionParserService.calculateConfidence`, as the source computes them. -/
def amountOkB (amount : ℚ) : Bool := decide (0 < |amount|)

/-- `data.description && data.description.length > 3 && data.description !== 'Transaction'` -/
def descriptionOkB (description : List Char) : Bool :=
  !description.isEmpty && decide (3 < description.length) &&
    decide (description ≠ "Transaction".data)

/-- `data.balance !== null && data.balance > 0` -/
def balanceOkB (balance : Option ℚ) : Bool :=
  match balance with
  | some b => decide (0 < b)
  | none => false

/-- `TransactionParserService.calculateConfidence` (the `text` field of its
argument record is never read by the source and is omitted). -/
def calculateConfidence (date : JsDate) (amount : ℚ) (description : List Char)
    (balance : Option ℚ) : Int :=
  if isDateValid date && amountOkB amount && descriptionOkB description &&
     balanceOkB balance then 100
  else
    min 100 (max 0
      ((if isDateValid date then 30 else 0) +
       (if amountOkB amount then 30 else 0) +
       (if descriptionOkB description then 25 else 0) +
       (if balanceOkB balance then 15 else 0)))

structure ParsedTransaction where
  date : JsDate
  description : List Char
  amount : ℚ
  type : TxnType
  balance : Option ℚ
  confidence : Int
deriving DecidableEq, Repr

/-- `TransactionParserService.parseTransaction` on already-trimmed text. -/
def parseNormalized (t : List Char) : ParsedTransaction :=
  let date := extractDate t
  let amount := extractAmount t
  let ty := determineType t amount
  let description := extractDescription t
  let balance := extractBalance t
  let confidence := calculateConfidence date amount description balance
  { date := date, description := description, amount := |amount|, type := ty,
    balance := balance, confidence := confidence }

/-- `TransactionParserService.parseTransaction`. -/
def parseTransaction (s : String) : ParsedTransaction :=
  parseNormalized (jsTrim s.data)

/-! ## Pagination model (`TransactionService.getTransactions`)

The database is modelled as a list of stored records; the prisma
`findMany` call is modelled by its documented semantics: filter by the
`where` clause, order by `createdAt` descending, position the window at
the cursor record, skip, take. -/

structure TxnRec where
  id : Nat
  orgId : Nat
  createdAt : Nat
deriving DecidableEq, Repr

/-- The `orderBy: createdAt desc` ordering relation. -/
def createdDesc (a b : TxnRec) : Prop := b.createdAt ≤ a.createdAt

instance : DecidableRel createdDesc := fun _ _ => Nat.decLe _ _

instance : IsTotal TxnRec createdDesc := ⟨fun a b => le_total b.createdAt a.createdAt⟩

instance : IsTrans TxnRec createdDesc := ⟨fun _ _ _ h1 h2 => le_trans h2 h1⟩

/-- `orderBy: createdAt desc` (ties are broken by store order, which the
database leaves unspecified; no claim depends on the tie order). -/
def sortByCreatedDesc (l : List TxnRec) : List TxnRec :=
  l.insertionSort createdDesc

/-- The prisma call
`findMany(where organizationId, take, skip, cursor, orderBy createdAt desc)`. -/
def findManyModel (store : List TxnRec) (org : Nat) (cursor : Option Nat)
    (skipN takeN : Nat) : List TxnRec :=
  let ordered := sortByCreatedDesc (store.filter (fun r => r.orgId = org))
  let positioned :=
    match cursor with
    | none => ordered
    | some cid => ordered.dropWhile (fun r => r.id ≠ cid)
  (positioned.drop skipN).take takeN

/-- The query accepted by `getTransactionsSchema` (the route schema also
bounds an explicit limit to 1..100 before it reaches the service). -/
structure GetQuery where
  cursor : Option Nat
  limit : Option Nat

structure PageResult where
  transactions : List TxnRec
  nextCursor : Option Nat
  hasMore : Bool
deriving DecidableEq, Repr

/-- `TransactionService.getTransactions`. -/
def getTransactions (store : List TxnRec) (q : GetQuery) (org : Nat) : PageResult :=
  let limit := min (q.limit.getD 20) 100
  let fetched := findManyModel store org q.cursor (if q.cursor.isSome then 1 else 0) (limit + 1)
  let hasMore := decide (limit < fetched.length)
  let results := fetched.take limit
  let nextCursor :=
    if hasMore = true ∧ 0 < results.length then (results.getLast?).map (fun r => r.id)
    else none
  { transactions := results, nextCursor := nextCursor, hasMore := hasMore }

/-- The organisation's records that lie beyond the cursor (exclusive), in
descending creation order: the pool the returned page is drawn from. -/
def pageCandidates (store : List TxnRec) (org : Nat) (cursor : Option Nat) : List TxnRec :=
  let ordered := sortByCreatedDesc (store.filter (fun r => r.orgId = org))
  let positioned :=
    match cursor with
    | none => ordered
    | some cid => ordered.dropWhile (fun r => r.id ≠ cid)
  positioned.drop (if cursor.isSome then 1 else 0)

/-- A 0-based month index denotes a real calendar month when it lies in
0..11 (January..December). -/
def monthIndexInRange (m : Int) : Prop := 0 ≤ m ∧ m < 12

instance : DecidablePred monthIndexInRange := fun m =>
  inferInstanceAs (Decidable (0 ≤ m ∧ m < 12))

/-- The day-first ambiguity sample of spec §8. -/
def sampleUber : List Char :=
  "Uber Ride * Airport Drop\n12/11/2025 → ₹1,250.00 debited\nAvailable Balance → ₹17,170.50".data

/-- The all-fields sample of spec §8. -/
def sampleStarbucks : String :=
  "Date: 11 Dec 2025\nDescription: STARBUCKS COFFEE MUMBAI\nAmount: -420.00\nBalance after transaction: 18,420.50"

/-! ## Helper lemmas -/

theorem calcConf_eq_100_iff (d : JsDate) (a : ℚ) (ds : List Char) (b : Option ℚ) :
    calculateConfidence d a ds b = 100 ↔
      (isDateValid d = true ∧ amountOkB a = true ∧ descriptionOkB ds = true ∧
       balanceOkB b = true) := by
  unfold calculateConfidence
  cases h1 : isDateValid d <;> cases h2 : amountOkB a <;>
    cases h3 : descriptionOkB ds <;> cases h4 : balanceOkB b <;> decide

theorem calcConf_lt_100 (d : JsDate) (a : ℚ) (ds : List Char) (b : Option ℚ)
    (h : ¬(isDateValid d = true ∧ amountOkB a = true ∧ descriptionOkB ds = true ∧
       balanceOkB b = true)) :
    calculateConfidence d a ds b < 100 := by
  unfold calculateConfidence
  revert h
  cases h1 : isDateValid d <;> cases h2 : amountOkB a <;>
    cases h3 : descriptionOkB ds <;> cases h4 : balanceOkB b <;> decide

theorem calcConf_bounds (d : JsDate) (a : ℚ) (ds : List Char) (b : Option ℚ) :
    0 ≤ calculateConfidence d a ds b ∧ calculateConfidence d a ds b ≤ 100 := by
  unfold calculateConfidence
  cases h1 : isDateValid d <;> cases h2 : amountOkB a <;>
    cases h3 : descriptionOkB ds <;> cases h4 : balanceOkB b <;> decide

theorem jsTrim_of_all_wsp (l : List Char) (h : ∀ c ∈ l, jsWsp c = true) :
    jsTrim l = [] := by
  unfold jsTrim
  rw [List.dropWhile_eq_nil_iff.mpr h]
  simp

theorem parseFloatCore_frac (l intPart frac : List Char)
    (ht : l.takeWhile Char.isDigit = intPart)
    (hd : l.dropWhile Char.isDigit = '.' :: frac)
    (hf : frac.takeWhile Char.isDigit = frac) :
    parseFloatCore l = (parseNatDigits intPart : ℚ) +
      (parseNatDigits frac : ℚ) / (10 : ℚ) ^ frac.length := by
  unfold parseFloatCore
  rw [hd, ht]
  show (parseNatDigits intPart : ℚ) +
      (parseNatDigits (frac.takeWhile Char.isDigit) : ℚ) /
        (10 : ℚ) ^ (frac.takeWhile Char.isDigit).length = _
  rw [hf]

theorem findMatch_leftmost (r : RE) (s : List Char) (i n : Nat) (caps : Caps)
    (h : findMatch r s = some (i, n, caps)) :
    ∀ j < i, tryAt r (s.drop j) = none := by
  induction s generalizing i n caps with
  | nil =>
    intro j hj
    simp only [findMatch] at h
    cases htry : tryAt r [] with
    | some p =>
      rw [htry] at h
      simp at h
      omega
    | none => rw [htry] at h; simp at h
  | cons x t ih =>
    intro j hj
    simp only [findMatch] at h
    cases htry : tryAt r (x :: t) with
    | some p =>
      rw [htry] at h
      cases h
      omega
    | none =>
      rw [htry] at h
      simp only [Option.map_eq_some'] at h
      obtain ⟨⟨i', n', caps'⟩, hfind, heq⟩ := h
      cases heq
      match j with
      | 0 => simpa using htry
      | j' + 1 =>
        have := ih _ _ _ hfind j' (by omega)
        simpa using this

/-! ## Claim theorems -/

/-- C1: for every input text, `parseTransaction` returns confidence exactly
100 when all four validity predicates hold (valid non-NaN date, absolute
amount > 0, description longer than 3 characters and not the literal
fallback, balance present and strictly positive), and strictly less than
100 whenever any of them fails. -/
theorem claim1_confidence_100_iff (t : String) :
    ((parseTransaction t).confidence = 100 ↔
      (isDateValid (extractDate (jsTrim t.data)) = true ∧
       amountOkB (extractAmount (jsTrim t.data)) = true ∧
       descriptionOkB (extractDescription (jsTrim t.data)) = true ∧
       balanceOkB (extractBalance (jsTrim t.data)) = true)) ∧
    (¬(isDateValid (extractDate (jsTrim t.data)) = true ∧
       amountOkB (extractAmount (jsTrim t.data)) = true ∧
       descriptionOkB (extractDescription (jsTrim t.data)) = true ∧
       balanceOkB (extractBalance (jsTrim t.data)) = true) →
      (parseTransaction t).confidence < 100) := by
  constructor
  · exact calcConf_eq_100_iff _ _ _ _
  · exact fun h => calcConf_lt_100 _ _ _ _ h

/-- Witness for C1 at the spec §8 all-fields sample: every predicate holds
and the returned confidence is exactly 100. -/
theorem claim1_witness :
    (parseTransaction sampleStarbucks).confidence = 100 := by
  apply (claim1_confidence_100_iff sampleStarbucks).1.mpr
  refine ⟨by decide, ?_, by decide, ?_⟩
  · have hm : matchCaps amountPattern1 (jsTrim sampleStarbucks.data) =
        some [(1, "-420.00".data)] := by decide
    have he : extractAmount (jsTrim sampleStarbucks.data) =
        parseFloatQ (stripCommas "-420.00".data) := by
      unfold extractAmount
      rw [hm]
      rfl
    have hs : stripCommas "-420.00".data = "-420.00".data := by decide
    have hcore := parseFloatCore_frac "420.00".data "420".data "00".data
      (by decide) (by decide) (by decide)
    unfold amountOkB
    rw [he, hs, show parseFloatQ "-420.00".data = -(parseFloatCore "420.00".data) from rfl,
      hcore, show parseNatDigits "420".data = 420 from by decide,
      show parseNatDigits "00".data = 0 from by decide,
      show ("00".data).length = 2 from by decide]
    norm_num
  · have hm : matchCaps balancePattern1a (jsTrim sampleStarbucks.data) =
        some [(1, "18,420.50".data)] := by decide
    have he : extractBalance (jsTrim sampleStarbucks.data) =
        some (parseFloatQ (stripCommas "18,420.50".data)) := by
      unfold extractBalance
      rw [hm]
      rfl
    have hs : stripCommas "18,420.50".data = "18420.50".data := by decide
    have hcore := parseFloatCore_frac "18420.50".data "18420".data "50".data
      (by decide) (by decide) (by decide)
    unfold balanceOkB
    rw [he, hs, show parseFloatQ "18420.50".data = parseFloatCore "18420.50".data from rfl,
      hcore, show parseNatDigits "18420".data = 18420 from by decide,
      show parseNatDigits "50".data = 50 from by decide,
      show ("50".data).length = 2 from by decide]
    norm_num

/-- C2: for every input string, the parsed result has confidence within
[0, 100] and a non-negative (absolute-value) amount. -/
theorem claim2_output_bounds (t : String) :
    0 ≤ (parseTransaction t).confidence ∧ (parseTransaction t).confidence ≤ 100 ∧
    0 ≤ (parseTransaction t).amount :=
  ⟨(calcConf_bounds _ _ _ _).1, (calcConf_bounds _ _ _ _).2, abs_nonneg _⟩

/-- C3 counterexample: the claim asserts confidence 0 for whitespace-only
input, but the parser's current-date fallback is a valid date and earns the
30-point date weight, so `parseTransaction " "` has confidence 30, not 0. -/
theorem claim3_counterexample :
    (parseTransaction " ").confidence = 30 ∧ ¬(parseTransaction " ").confidence = 0 := by
  decide

/-- C3 (amended): for every empty or whitespace-only input the parser still
returns a structure with description `"Transaction"`, amount 0, type debit,
absent balance — and confidence 30 (not 0): the current-date fallback is a
valid date and earns the 30-point date weight. -/
theorem claim3_whitespace_defaults (s : String) (h : ∀ c ∈ s.data, jsWsp c = true) :
    (parseTransaction s).description = "Transaction".data ∧
    (parseTransaction s).amount = 0 ∧
    (parseTransaction s).type = TxnType.debit ∧
    (parseTransaction s).balance = none ∧
    (parseTransaction s).date = JsDate.now ∧
    (parseTransaction s).confidence = 30 := by
  have hnil : jsTrim s.data = [] := jsTrim_of_all_wsp _ h
  have hp : parseTransaction s = parseNormalized [] := by
    unfold parseTransaction
    rw [hnil]
  rw [hp]
  decide

/-- Witness for C3 (amended) at the single-space input. -/
theorem claim3_witness :
    (parseTransaction " ").description = "Transaction".data ∧
    (parseTransaction " ").confidence = 30 :=
  ⟨(claim3_whitespace_defaults " " (by decide)).1,
   (claim3_whitespace_defaults " " (by decide)).2.2.2.2.2⟩

/-- C4: when the month-name date pattern fails and the slash pattern
matches, the first numeric capture becomes the day and the second the month
(day-first, never month-first); in particular the §8 sample containing
`12/11/2025` parses to day 12, month index 10 (November), year 2025. -/
theorem claim4_day_first_slash_date :
    (∀ t caps, matchCaps datePattern1 t = none → matchCaps datePattern2 t = some caps →
      extractDate t = JsDate.ymd (parseNatDigits (getCap caps 3))
        ((parseNatDigits (getCap caps 2) : Int) - 1) (parseNatDigits (getCap caps 1))) ∧
    extractDate sampleUber = JsDate.ymd 2025 10 12 := by
  constructor
  · intro t caps h1 h2
    unfold extractDate
    rw [h1, h2]
  · decide

/-- Witness for C4 at the input `12/11/2025`. -/
theorem claim4_witness : extractDate "12/11/2025".data = JsDate.ymd 2025 10 12 := by
  have h := claim4_day_first_slash_date.1 "12/11/2025".data
    [(1, "12".data), (2, "11".data), (3, "2025".data)] (by decide) (by decide)
  rw [h]
  decide

/-- C5: type determination returns exactly one of debit/credit, with the
fixed priority: a debit keyword (`debited`, or space/newline-bounded `dr`)
forces debit; otherwise a credit keyword (`credited`, or bounded `cr`)
forces credit; otherwise the result is debit regardless of the amount, so
credit is returned only when explicitly signaled. -/
theorem claim5_type_priority (t : List Char) (a : ℚ) :
    (determineType t a = TxnType.debit ∨ determineType t a = TxnType.credit) ∧
    ((hasSeq "debited".data (lowerL t) || hasSeq " dr ".data (lowerL t) ||
      hasSeq " dr\n".data (lowerL t)) = true → determineType t a = TxnType.debit) ∧
    ((hasSeq "debited".data (lowerL t) || hasSeq " dr ".data (lowerL t) ||
      hasSeq " dr\n".data (lowerL t)) = false →
     (hasSeq "credited".data (lowerL t) || hasSeq " cr ".data (lowerL t) ||
      hasSeq " cr\n".data (lowerL t)) = true → determineType t a = TxnType.credit) ∧
    (determineType t a = TxnType.credit →
      (hasSeq "credited".data (lowerL t) || hasSeq " cr ".data (lowerL t) ||
       hasSeq " cr\n".data (lowerL t)) = true) := by
  unfold determineType
  cases hdeb : (hasSeq "debited".data (lowerL t) || hasSeq " dr ".data (lowerL t) ||
      hasSeq " dr\n".data (lowerL t)) <;>
    cases hcr : (hasSeq "credited".data (lowerL t) || hasSeq " cr ".data (lowerL t) ||
      hasSeq " cr\n".data (lowerL t)) <;>
    simp [hdeb, hcr]

/-- Witness for C5 at a credit-keyword input with a positive amount. -/
theorem claim5_witness : determineType "abc credited".data 5 = TxnType.credit :=
  (claim5_type_priority "abc credited".data 5).2.2.1 (by decide) (by decide)

/-- C6: balance extraction tries the six sub-patterns in the fixed order
1a (family 1 with commas), 1b, 2a, 2b, 3a, 3b; the first match wins (its
capture is comma-stripped and numerically parsed) and the result is `none`
— never zero — exactly when none of the six sub-patterns matches. -/
theorem claim6_balance_order (t : List Char) :
    (extractBalance t = none ↔
      matchCaps balancePattern1a t = none ∧ matchCaps balancePattern1b t = none ∧
      matchCaps balancePattern2a t = none ∧ matchCaps balancePattern2b t = none ∧
      matchCaps balancePattern3a t = none ∧ matchCaps balancePattern3b t = none) ∧
    (∀ caps, matchCaps balancePattern1a t = some caps →
      extractBalance t = some (parseFloatQ (stripCommas (getCap caps 1)))) ∧
    (∀ caps, matchCaps balancePattern1a t = none →
      matchCaps balancePattern1b t = some caps →
      extractBalance t = some (parseFloatQ (stripCommas (getCap caps 1)))) ∧
    (∀ caps, matchCaps balancePattern1a t = none →
      matchCaps balancePattern1b t = none →
      matchCaps balancePattern2a t = some caps →
      extractBalance t = some (parseFloatQ (stripCommas (getCap caps 1)))) ∧
    (∀ caps, matchCaps balancePattern1a t = none →
      matchCaps balancePattern1b t = none →
      matchCaps balancePattern2a t = none →
      matchCaps balancePattern2b t = some caps →
      extractBalance t = some (parseFloatQ (stripCommas (getCap caps 1)))) ∧
    (∀ caps, matchCaps balancePattern1a t = none →
      matchCaps balancePattern1b t = none →
      matchCaps balancePattern2a t = none →
      matchCaps balancePattern2b t = none →
      matchCaps balancePattern3a t = some caps →
      extractBalance t = some (parseFloatQ (stripCommas (getCap caps 1)))) ∧
    (∀ caps, matchCaps balancePattern1a t = none →
      matchCaps balancePattern1b t = none →
      matchCaps balancePattern2a t = none →
      matchCaps balancePattern2b t = none →
      matchCaps balancePattern3a t = none →
      matchCaps balancePattern3b t = some caps →
      extractBalance t = some (parseFloatQ (stripCommas (getCap caps 1)))) := by
  unfold extractBalance
  cases h1 : matchCaps balancePattern1a t <;>
    cases h2 : matchCaps balancePattern1b t <;>
    cases h3 : matchCaps balancePattern2a t <;>
    cases h4 : matchCaps balancePattern2b t <;>
    cases h5 : matchCaps balancePattern3a t <;>
    cases h6 : matchCaps balancePattern3b t <;>
    simp_all

/-- Witness for C6: the family-3 no-comma sub-pattern is reached only after
the five earlier sub-patterns fail. -/
theorem claim6_witness :
    extractBalance "Bal 14171.50".data =
      some (parseFloatQ (stripCommas (getCap [(1, "14171.50".data)] 1))) :=
  (claim6_balance_order "Bal 14171.50".data).2.2.2.2.2.2 _
    (by decide) (by decide) (by decide) (by decide) (by decide) (by decide)

/-- C7: the slash date pattern performs no range validation: on
`"13/13/2025"` (where the month-name pattern cannot match) it still
matches, capturing day 13 and month 13, and the parser builds the date
object `new Date(2025, 12, 13)` — whose written month is outside the real
calendar range 1..12, i.e. its 0-based month index 12 is not a real month
(JavaScript silently normalises it by rollover) — rather than failing or
falling through to the ISO pattern or the current-date fallback. -/
theorem claim7_no_range_validation :
    matchCaps datePattern2 "13/13/2025".data =
      some [(1, "13".data), (2, "13".data), (3, "2025".data)] ∧
    extractDate "13/13/2025".data = JsDate.ymd 2025 12 13 ∧
    ¬ monthIndexInRange 12 ∧
    extractDate "13/13/2025".data ≠ JsDate.now ∧
    extractDate "13/13/2025".data ≠ JsDate.nanDate := by
  decide

/-- C8: when the three structured amount patterns all fail, the amount is
the numeric parse of the earliest bare number-like token (the match is at
the least position: every earlier position admits no match), and when no
such token exists at all the amount is 0. -/
theorem claim8_bare_number_fallback (t : List Char)
    (h1 : matchCaps amountPattern1 t = none)
    (h2 : matchCaps amountPattern2 t = none)
    (h3 : matchCaps debitPattern t = none) :
    (∀ i n caps, findMatch bareNumber t = some (i, n, caps) →
      extractAmount t = parseFloatQ (stripCommas ((t.drop i).take n)) ∧
      ∀ j < i, tryAt bareNumber (t.drop j) = none) ∧
    (findMatch bareNumber t = none → extractAmount t = 0) := by
  constructor
  · intro i n caps hm
    refine ⟨?_, findMatch_leftmost _ _ _ _ _ hm⟩
    unfold extractAmount
    rw [h1, h2, h3, hm]
  · intro hm
    unfold extractAmount
    rw [h1, h2, h3, hm]

/-- Witness for C8: a text with no structured amount form, whose first bare
number starts at index 6 with length 9. -/
theorem claim8_witness :
    extractAmount "Order 12,345.67 thanks".data =
      parseFloatQ (stripCommas (("Order 12,345.67 thanks".data.drop 6).take 9)) :=
  ((claim8_bare_number_fallback "Order 12,345.67 thanks".data
    (by decide) (by decide) (by decide)).1 6 9 [] (by decide)).1

theorem pageCandidates_subset_sorted (store : List TxnRec) (org : Nat)
    (cur : Option Nat) :
    List.Sublist (pageCandidates store org cur)
      (sortByCreatedDesc (store.filter (fun r => r.orgId = org))) := by
  unfold pageCandidates
  cases cur with
  | none => exact List.drop_sublist _ _
  | some cid =>
    exact (List.drop_sublist _ _).trans (List.dropWhile_sublist _)

theorem pageCandidates_mem_orgId (store : List TxnRec) (org : Nat)
    (cur : Option Nat) (r : TxnRec) (hr : r ∈ pageCandidates store org cur) :
    r.orgId = org := by
  have h2 : r ∈ sortByCreatedDesc (store.filter (fun x => x.orgId = org)) :=
    (pageCandidates_subset_sorted store org cur).mem hr
  have h3 : r ∈ store.filter (fun x => x.orgId = org) :=
    (List.mem_insertionSort createdDesc).mp h2
  have h4 := List.of_mem_filter h3
  exact of_decide_eq_true h4

theorem pageCandidates_sorted (store : List TxnRec) (org : Nat) (cur : Option Nat) :
    List.Sorted createdDesc (pageCandidates store org cur) :=
  (List.sorted_insertionSort createdDesc _).sublist (pageCandidates_subset_sorted store org cur)

/-- C9 counterexample: a one-record store with no cursor and default limit
produces a non-empty page whose continuation cursor is `null`, not the
identifier of the last record in the page (the service returns a cursor
only when `hasMore` holds). -/
theorem claim9_counterexample :
    (getTransactions [⟨7, 1, 5⟩] ⟨none, none⟩ 1).transactions = [⟨7, 1, 5⟩] ∧
    (getTransactions [⟨7, 1, 5⟩] ⟨none, none⟩ 1).nextCursor = none ∧
    (getTransactions [⟨7, 1, 5⟩] ⟨none, none⟩ 1).nextCursor ≠ some 7 := by
  decide

/-- C9 (amended): listing uses the effective page size
`min(requested limit, 100)` with default 20; the page is the prefix of the
organisation's records beyond the cursor in descending creation order;
`hasMore` holds exactly when more matching records exist beyond the
effective page size; and the continuation cursor is the identifier of the
last record of the page when `hasMore` holds, and `null` otherwise. -/
theorem claim9_pagination (store : List TxnRec) (q : GetQuery) (org : Nat) :
    (getTransactions store q org).transactions =
      (pageCandidates store org q.cursor).take (min (q.limit.getD 20) 100) ∧
    (getTransactions store q org).transactions.length =
      min (min (q.limit.getD 20) 100) (pageCandidates store org q.cursor).length ∧
    (∀ r ∈ (getTransactions store q org).transactions, r.orgId = org) ∧
    List.Sorted createdDesc (getTransactions store q org).transactions ∧
    ((getTransactions store q org).hasMore = true ↔
      min (q.limit.getD 20) 100 < (pageCandidates store org q.cursor).length) ∧
    ((getTransactions store q org).hasMore = true →
      (getTransactions store q org).nextCursor =
        ((getTransactions store q org).transactions.getLast?).map (fun r => r.id)) ∧
    ((getTransactions store q org).hasMore = false →
      (getTransactions store q org).nextCursor = none) := by
  have htake : (getTransactions store q org).transactions =
      (pageCandidates store org q.cursor).take (min (q.limit.getD 20) 100) := by
    show (((pageCandidates store org q.cursor).take (min (q.limit.getD 20) 100 + 1)).take
        (min (q.limit.getD 20) 100)) = _
    rw [List.take_take, min_eq_left (by omega)]
  refine ⟨htake, ?_, ?_, ?_, ?_, ?_, ?_⟩
  · rw [htake, List.length_take]
  · intro r hr
    rw [htake] at hr
    exact pageCandidates_mem_orgId store org q.cursor r
      ((List.take_sublist _ _).mem hr)
  · rw [htake]
    exact (pageCandidates_sorted store org q.cursor).sublist (List.take_sublist _ _)
  · show decide (min (q.limit.getD 20) 100 <
        ((pageCandidates store org q.cursor).take (min (q.limit.getD 20) 100 + 1)).length) = true ↔ _
    rw [List.length_take, decide_eq_true_eq]
    omega
  · intro hmore
    show (if (getTransactions store q org).hasMore = true ∧
        0 < (getTransactions store q org).transactions.length then
          ((getTransactions store q org).transactions.getLast?).map (fun r => r.id)
        else none) = _
    by_cases hlen : 0 < (getTransactions store q org).transactions.length
    · rw [if_pos ⟨hmore, hlen⟩]
    · rw [if_neg (fun hc => hlen hc.2)]
      have : (getTransactions store q org).transactions = [] :=
        List.eq_nil_of_length_eq_zero (by omega)
      rw [this]
      rfl
  · intro hno
    show (if (getTransactions store q org).hasMore = true ∧
        0 < (getTransactions store q org).transactions.length then
          ((getTransactions store q org).transactions.getLast?).map (fun r => r.id)
        else none) = none
    rw [if_neg (fun hc => by rw [hno] at hc; exact Bool.false_ne_true hc.1)]

/-- Witness for C9 (amended): with three stored records and limit 2,
`hasMore` holds and the continuation cursor is the id of the page's last
record. -/
theorem claim9_witness :
    (getTransactions [⟨1, 1, 10⟩, ⟨2, 1, 20⟩, ⟨3, 1, 30⟩] ⟨none, some 2⟩ 1).nextCursor =
      (((getTransactions [⟨1, 1, 10⟩, ⟨2, 1, 20⟩, ⟨3, 1, 30⟩] ⟨none, some 2⟩ 1).transactions).getLast?).map
        (fun r => r.id) :=
  (claim9_pagination [⟨1, 1, 10⟩, ⟨2, 1, 20⟩, ⟨3, 1, 30⟩] ⟨none, some 2⟩ 1).2.2.2.2.2.1
    (by decide)

/-! ## Engine inversion lemmas (for the date-validity invariant) -/

theorem mem_matchR_clsE (f : Nat) (p : Char → Bool) (s : List Char) (n : Nat) (c : Caps)
    (h : (n, c) ∈ matchR f (.cls p) s) :
    n = 1 ∧ c = [] ∧ ∃ x s', s = x :: s' ∧ p x = true := by
  match f, s with
  | 0, _ => simp [matchR] at h
  | f + 1, [] => simp [matchR] at h
  | f + 1, x :: s' =>
    simp only [matchR] at h
    by_cases hx : p x = true
    · rw [if_pos hx] at h
      simp at h
      exact ⟨h.1, h.2, x, s', rfl, hx⟩
    · rw [if_neg hx] at h
      simp at h

theorem mem_matchR_seqE (f : Nat) (a b : RE) (s : List Char) (n : Nat) (c : Caps)
    (h : (n, c) ∈ matchR f (.seq a b) s) :
    ∃ f' n1 c1 n2 c2, f = f' + 1 ∧ (n1, c1) ∈ matchR f' a s ∧
      (n2, c2) ∈ matchR f' b (s.drop n1) ∧ n = n1 + n2 ∧ c = c1 ++ c2 := by
  match f with
  | 0 => simp [matchR] at h
  | f + 1 =>
    simp only [matchR, List.mem_flatMap, List.mem_map] at h
    obtain ⟨⟨n1, c1⟩, h1, ⟨n2, c2⟩, h2, heq⟩ := h
    cases heq
    exact ⟨f, n1, c1, n2, c2, rfl, h1, h2, rfl, rfl⟩

theorem mem_matchR_altE (f : Nat) (a b : RE) (s : List Char) (n : Nat) (c : Caps)
    (h : (n, c) ∈ matchR f (.alt a b) s) :
    ∃ f', f = f' + 1 ∧ ((n, c) ∈ matchR f' a s ∨ (n, c) ∈ matchR f' b s) := by
  match f with
  | 0 => simp [matchR] at h
  | f + 1 =>
    simp only [matchR, List.mem_append] at h
    exact ⟨f, rfl, h⟩

theorem matchR_rep_cls (f : Nat) (p : Char → Bool) (lo hi : Nat) (s : List Char)
    (n : Nat) (c : Caps) (h : (n, c) ∈ matchR f (.rep (.cls p) lo hi) s) :
    n ≤ hi ∧ ∀ x ∈ s.take n, p x = true := by
  induction f generalizing lo hi s n c with
  | zero => simp [matchR] at h
  | succ f ih =>
    simp only [matchR] at h
    split at h
    · split at h <;> simp_all
    · rcases List.mem_append.mp h with h | h
      · simp only [List.mem_flatMap, List.mem_map] at h
        obtain ⟨⟨n1, c1⟩, h1, ⟨n2, c2⟩, h2, heq⟩ := h
        cases heq
        obtain ⟨hn1, _, x, s', hs, hx⟩ := mem_matchR_clsE f p s n1 c1 h1
        subst hn1
        subst hs
        obtain ⟨hn2, hall⟩ := ih _ _ _ _ _ h2
        constructor
        · omega
        · intro y hy
          rw [show (1 : Nat) + n2 = n2 + 1 from by omega] at hy
          simp only [List.take_succ_cons] at hy
          rcases List.mem_cons.mp hy with hy | hy
          · rwa [hy]
          · exact hall y (by simpa using hy)
      · split at h <;> simp_all

theorem matchR_stri3 (f : Nat) (p1 p2 p3 : Char → Bool) (s : List Char) (n : Nat) (c : Caps)
    (h : (n, c) ∈ matchR f (.seq (.cls p1) (.seq (.cls p2) (.cls p3))) s) :
    ∃ x y z s', s = x :: y :: z :: s' ∧ n = 3 ∧
      p1 x = true ∧ p2 y = true ∧ p3 z = true := by
  obtain ⟨f1, n1, c1, n2, c2, _, h1, h2, hn, _⟩ := mem_matchR_seqE _ _ _ _ _ _ h
  obtain ⟨hn1, _, x, sx, hsx, hx⟩ := mem_matchR_clsE _ _ _ _ _ h1
  obtain ⟨f2, n3, c3, n4, c4, _, h3, h4, hn2, _⟩ := mem_matchR_seqE _ _ _ _ _ _ h2
  subst hn1
  subst hsx
  obtain ⟨hn3, _, y, sy, hsy, hy⟩ := mem_matchR_clsE _ _ _ _ _ h3
  subst hn3
  simp only [List.drop_succ_cons, List.drop_zero] at hsy h4
  subst hsy
  obtain ⟨hn4, _, z, sz, hsz, hz⟩ := mem_matchR_clsE _ _ _ _ _ h4
  subst hn4
  simp only [List.drop_succ_cons, List.drop_zero] at hsz
  subst hsz
  exact ⟨x, y, z, sz, rfl, by omega, hx, hy, hz⟩

theorem matchR_caps : ∀ (f : Nat) (r : RE) (s : List Char) (n : Nat) (caps : Caps),
    (n, caps) ∈ matchR f r s → ∀ k cs, (k, cs) ∈ caps →
    ∃ b, (k, b) ∈ allGroups r ∧ Produces b cs := by
  intro f
  induction f with
  | zero => intro r s n caps h; simp [matchR] at h
  | succ f ih =>
    intro r s n caps h k cs hk
    cases r with
    | eps =>
      simp [matchR] at h
      rw [h.2] at hk
      simp at hk
    | eos =>
      simp only [matchR] at h
      split at h
      · simp at h
        rw [h.2] at hk
        simp at hk
      · simp at h
    | chr ch =>
      match s with
      | [] => simp [matchR] at h
      | x :: s' =>
        simp only [matchR] at h
        split at h
        · simp at h
          rw [h.2] at hk
          simp at hk
        · simp at h
    | cls p =>
      obtain ⟨_, hc, _⟩ := mem_matchR_clsE _ _ _ _ _ h
      rw [hc] at hk
      simp at hk
    | seq a b =>
      simp only [matchR, List.mem_flatMap, List.mem_map] at h
      obtain ⟨⟨n1, c1⟩, h1, ⟨n2, c2⟩, h2, heq⟩ := h
      cases heq
      rcases List.mem_append.mp hk with hk1 | hk2
      · obtain ⟨bb, hb, hp⟩ := ih a s n1 c1 h1 k cs hk1
        exact ⟨bb, by simp [allGroups, hb], hp⟩
      · obtain ⟨bb, hb, hp⟩ := ih b _ n2 c2 h2 k cs hk2
        exact ⟨bb, by simp [allGroups, hb], hp⟩
    | alt a b =>
      simp only [matchR, List.mem_append] at h
      rcases h with h | h
      · obtain ⟨bb, hb, hp⟩ := ih a s n caps h k cs hk
        exact ⟨bb, by simp [allGroups, hb], hp⟩
      · obtain ⟨bb, hb, hp⟩ := ih b s n caps h k cs hk
        exact ⟨bb, by simp [allGroups, hb], hp⟩
    | opt a =>
      simp only [matchR, List.mem_append] at h
      rcases h with h | h
      · obtain ⟨bb, hb, hp⟩ := ih a s n caps h k cs hk
        exact ⟨bb, by simpa [allGroups] using hb, hp⟩
      · simp at h
        rw [h.2] at hk
        simp at hk
    | star a =>
      simp only [matchR, List.mem_append, List.mem_flatMap] at h
      rcases h with ⟨⟨n1, c1⟩, h1, hrest⟩ | h
      · by_cases hz : n1 = 0
        · rw [if_pos hz] at hrest
          simp at hrest
        · rw [if_neg hz] at hrest
          simp only [List.mem_map] at hrest
          obtain ⟨⟨n2, c2⟩, h2, heq⟩ := hrest
          cases heq
          rcases List.mem_append.mp hk with hk1 | hk2
          · obtain ⟨bb, hb, hp⟩ := ih a s n1 c1 h1 k cs hk1
            exact ⟨bb, by simpa [allGroups] using hb, hp⟩
          · obtain ⟨bb, hb, hp⟩ := ih (.star a) _ n2 c2 h2 k cs hk2
            exact ⟨bb, by simpa [allGroups] using hb, hp⟩
      · simp at h
        rw [h.2] at hk
        simp at hk
    | rep a lo hi =>
      simp only [matchR] at h
      split at h
      · split at h
        · simp at h
          rw [h.2] at hk
          simp at hk
        · simp at h
      · rcases List.mem_append.mp h with h | h
        · simp only [List.mem_flatMap, List.mem_map] at h
          obtain ⟨⟨n1, c1⟩, h1, ⟨n2, c2⟩, h2, heq⟩ := h
          cases heq
          rcases List.mem_append.mp hk with hk1 | hk2
          · obtain ⟨bb, hb, hp⟩ := ih a s n1 c1 h1 k cs hk1
            exact ⟨bb, by simpa [allGroups] using hb, hp⟩
          · obtain ⟨bb, hb, hp⟩ := ih (.rep a (lo - 1) (hi - 1)) _ n2 c2 h2 k cs hk2
            exact ⟨bb, by simpa [allGroups] using hb, hp⟩
        · split at h
          · simp at h
            rw [h.2] at hk
            simp at hk
          · simp at h
    | group j a =>
      simp only [matchR, List.mem_map] at h
      obtain ⟨⟨n', c'⟩, h', heq⟩ := h
      cases heq
      rcases List.mem_cons.mp hk with hk | hk
      · injection hk with hk1 hk2
        subst hk1
        exact ⟨a, by simp [allGroups], f, s, n', c', hk2, h'⟩
      · obtain ⟨bb, hb, hp⟩ := ih a s n' c' h' k cs hk
        exact ⟨bb, by simp [allGroups, hb], hp⟩

theorem mandatory_present : ∀ (f : Nat) (r : RE) (s : List Char) (n : Nat) (caps : Caps),
    (n, caps) ∈ matchR f r s → ∀ k, mandatoryGroup r k = true → ∃ cs, (k, cs) ∈ caps := by
  intro f
  induction f with
  | zero => intro r s n caps h; simp [matchR] at h
  | succ f ih =>
    intro r s n caps h k hman
    cases r with
    | eps => simp [mandatoryGroup] at hman
    | eos => simp [mandatoryGroup] at hman
    | chr ch => simp [mandatoryGroup] at hman
    | cls p => simp [mandatoryGroup] at hman
    | opt a => simp [mandatoryGroup] at hman
    | star a => simp [mandatoryGroup] at hman
    | rep a lo hi => simp [mandatoryGroup] at hman
    | seq a b =>
      simp only [matchR, List.mem_flatMap, List.mem_map] at h
      obtain ⟨⟨n1, c1⟩, h1, ⟨n2, c2⟩, h2, heq⟩ := h
      cases heq
      simp only [mandatoryGroup, Bool.or_eq_true] at hman
      rcases hman with hman | hman
      · obtain ⟨cs, hcs⟩ := ih a s n1 c1 h1 k hman
        exact ⟨cs, List.mem_append_left _ hcs⟩
      · obtain ⟨cs, hcs⟩ := ih b _ n2 c2 h2 k hman
        exact ⟨cs, List.mem_append_right _ hcs⟩
    | alt a b =>
      simp only [matchR, List.mem_append] at h
      simp only [mandatoryGroup, Bool.and_eq_true] at hman
      rcases h with h | h
      · exact ih a s n caps h k hman.1
      · exact ih b s n caps h k hman.2
    | group j a =>
      simp only [matchR, List.mem_map] at h
      obtain ⟨⟨n', c'⟩, h', heq⟩ := h
      cases heq
      simp only [mandatoryGroup, Bool.or_eq_true, beq_iff_eq] at hman
      rcases hman with hman | hman
      · exact ⟨s.take n', by rw [hman]; exact List.mem_cons_self _ _⟩
      · obtain ⟨cs, hcs⟩ := ih a s n' c' h' k hman
        exact ⟨cs, List.mem_cons_of_mem _ hcs⟩

theorem matchR_stri3CI (f : Nat) (a b c : Char) (s : List Char) (n : Nat) (cp : Caps)
    (h : (n, cp) ∈ matchR f (striE [a, b, c]) s) :
    ∃ x y z s', s = x :: y :: z :: s' ∧ n = 3 ∧
      x.toLower = a ∧ y.toLower = b ∧ z.toLower = c := by
  have h' : (n, cp) ∈ matchR f
      (.seq (.cls fun x => decide (x.toLower = a))
        (.seq (.cls fun x => decide (x.toLower = b))
          (.cls fun x => decide (x.toLower = c)))) s := h
  obtain ⟨x, y, z, s', hs, hn, hx, hy, hz⟩ := matchR_stri3 _ _ _ _ _ _ _ h'
  exact ⟨x, y, z, s', hs, hn, of_decide_eq_true hx, of_decide_eq_true hy,
    of_decide_eq_true hz⟩

theorem lowerL_take3 (x y z : Char) (s' : List Char) (a b c : Char)
    (hx : x.toLower = a) (hy : y.toLower = b) (hz : z.toLower = c) :
    lowerL ((x :: y :: z :: s').take 3) = [a, b, c] := by
  simp [lowerL, hx, hy, hz]

theorem matchR_monthAlt (f : Nat) (s : List Char) (n : Nat) (c : Caps)
    (h : (n, c) ∈ matchR f monthAlt s) :
    ∃ m, m ≤ 11 ∧ monthMap (lowerL (s.take n)) = some m := by
  unfold monthAlt at h
  rcases mem_matchR_altE _ _ _ _ _ _ h with ⟨f1, _, h | h⟩
  · obtain ⟨x, y, z, s', hs, hn, hx, hy, hz⟩ := matchR_stri3CI _ 'j' 'a' 'n' _ _ _ h
    subst hs
    subst hn
    exact ⟨0, by omega, by rw [lowerL_take3 x y z s' _ _ _ hx hy hz]; decide⟩
  rcases mem_matchR_altE _ _ _ _ _ _ h with ⟨f2, _, h | h⟩
  · obtain ⟨x, y, z, s', hs, hn, hx, hy, hz⟩ := matchR_stri3CI _ 'f' 'e' 'b' _ _ _ h
    subst hs
    subst hn
    exact ⟨1, by omega, by rw [lowerL_take3 x y z s' _ _ _ hx hy hz]; decide⟩
  rcases mem_matchR_altE _ _ _ _ _ _ h with ⟨f3, _, h | h⟩
  · obtain ⟨x, y, z, s', hs, hn, hx, hy, hz⟩ := matchR_stri3CI _ 'm' 'a' 'r' _ _ _ h
    subst hs
    subst hn
    exact ⟨2, by omega, by rw [lowerL_take3 x y z s' _ _ _ hx hy hz]; decide⟩
  rcases mem_matchR_altE _ _ _ _ _ _ h with ⟨f4, _, h | h⟩
  · obtain ⟨x, y, z, s', hs, hn, hx, hy, hz⟩ := matchR_stri3CI _ 'a' 'p' 'r' _ _ _ h
    subst hs
    subst hn
    exact ⟨3, by omega, by rw [lowerL_take3 x y z s' _ _ _ hx hy hz]; decide⟩
  rcases mem_matchR_altE _ _ _ _ _ _ h with ⟨f5, _, h | h⟩
  · obtain ⟨x, y, z, s', hs, hn, hx, hy, hz⟩ := matchR_stri3CI _ 'm' 'a' 'y' _ _ _ h
    subst hs
    subst hn
    exact ⟨4, by omega, by rw [lowerL_take3 x y z s' _ _ _ hx hy hz]; decide⟩
  rcases mem_matchR_altE _ _ _ _ _ _ h with ⟨f6, _, h | h⟩
  · obtain ⟨x, y, z, s', hs, hn, hx, hy, hz⟩ := matchR_stri3CI _ 'j' 'u' 'n' _ _ _ h
    subst hs
    subst hn
    exact ⟨5, by omega, by rw [lowerL_take3 x y z s' _ _ _ hx hy hz]; decide⟩
  rcases mem_matchR_altE _ _ _ _ _ _ h with ⟨f7, _, h | h⟩
  · obtain ⟨x, y, z, s', hs, hn, hx, hy, hz⟩ := matchR_stri3CI _ 'j' 'u' 'l' _ _ _ h
    subst hs
    subst hn
    exact ⟨6, by omega, by rw [lowerL_take3 x y z s' _ _ _ hx hy hz]; decide⟩
  rcases mem_matchR_altE _ _ _ _ _ _ h with ⟨f8, _, h | h⟩
  · obtain ⟨x, y, z, s', hs, hn, hx, hy, hz⟩ := matchR_stri3CI _ 'a' 'u' 'g' _ _ _ h
    subst hs
    subst hn
    exact ⟨7, by omega, by rw [lowerL_take3 x y z s' _ _ _ hx hy hz]; decide⟩
  rcases mem_matchR_altE _ _ _ _ _ _ h with ⟨f9, _, h | h⟩
  · obtain ⟨x, y, z, s', hs, hn, hx, hy, hz⟩ := matchR_stri3CI _ 's' 'e' 'p' _ _ _ h
    subst hs
    subst hn
    exact ⟨8, by omega, by rw [lowerL_take3 x y z s' _ _ _ hx hy hz]; decide⟩
  rcases mem_matchR_altE _ _ _ _ _ _ h with ⟨f10, _, h | h⟩
  · obtain ⟨x, y, z, s', hs, hn, hx, hy, hz⟩ := matchR_stri3CI _ 'o' 'c' 't' _ _ _ h
    subst hs
    subst hn
    exact ⟨9, by omega, by rw [lowerL_take3 x y z s' _ _ _ hx hy hz]; decide⟩
  rcases mem_matchR_altE _ _ _ _ _ _ h with ⟨f11, _, h | h⟩
  · obtain ⟨x, y, z, s', hs, hn, hx, hy, hz⟩ := matchR_stri3CI _ 'n' 'o' 'v' _ _ _ h
    subst hs
    subst hn
    exact ⟨10, by omega, by rw [lowerL_take3 x y z s' _ _ _ hx hy hz]; decide⟩
  · obtain ⟨x, y, z, s', hs, hn, hx, hy, hz⟩ := matchR_stri3CI _ 'd' 'e' 'c' _ _ _ h
    subst hs
    subst hn
    exact ⟨11, by omega, by rw [lowerL_take3 x y z s' _ _ _ hx hy hz]; decide⟩

theorem getCap_mem_of_exists (caps : Caps) (k : Nat) (hex : ∃ cs, (k, cs) ∈ caps) :
    (k, getCap caps k) ∈ caps := by
  obtain ⟨cs, hcs⟩ := hex
  unfold getCap
  cases hf : caps.find? (fun p => p.1 == k) with
  | none =>
    exfalso
    have := List.find?_eq_none.mp hf (k, cs) hcs
    simp at this
  | some p =>
    obtain ⟨k', cs'⟩ := p
    have hp := List.find?_some hf
    have hm := List.mem_of_find?_eq_some hf
    have hk : k' = k := by simpa using hp
    subst hk
    exact hm

theorem getCap_mem_or_nil (caps : Caps) (k : Nat) :
    getCap caps k = [] ∨ (k, getCap caps k) ∈ caps := by
  unfold getCap
  cases hf : caps.find? (fun p => p.1 == k) with
  | none => exact Or.inl rfl
  | some p =>
    obtain ⟨k', cs'⟩ := p
    have hp := List.find?_some hf
    have hm := List.mem_of_find?_eq_some hf
    have hk : k' = k := by simpa using hp
    subst hk
    exact Or.inr hm

theorem tryAt_mem (r : RE) (s : List Char) (p : Nat × Caps) (h : tryAt r s = some p) :
    p ∈ matchR (s.length + 1000) r s := by
  unfold tryAt at h
  exact List.mem_of_mem_head? (by simp [Option.mem_def, h])

theorem findMatch_mem (r : RE) : ∀ (s : List Char) (i n : Nat) (caps : Caps),
    findMatch r s = some (i, n, caps) →
    ∃ s', (n, caps) ∈ matchR (s'.length + 1000) r s' := by
  intro s
  induction s with
  | nil =>
    intro i n caps h
    simp only [findMatch] at h
    cases htry : tryAt r [] with
    | none => rw [htry] at h; simp at h
    | some p =>
      rw [htry] at h
      simp only [Option.map_eq_some'] at h
      obtain ⟨⟨n', caps'⟩, hp, heq⟩ := h
      cases heq
      cases hp
      exact ⟨[], tryAt_mem r [] _ htry⟩
  | cons x t ih =>
    intro i n caps h
    simp only [findMatch] at h
    cases htry : tryAt r (x :: t) with
    | some p =>
      rw [htry] at h
      cases h
      exact ⟨x :: t, tryAt_mem r (x :: t) _ htry⟩
    | none =>
      rw [htry] at h
      simp only [Option.map_eq_some'] at h
      obtain ⟨⟨i', n', caps'⟩, hfind, heq⟩ := h
      cases heq
      exact ih _ _ _ hfind

theorem matchCaps_mem (r : RE) (t : List Char) (caps : Caps)
    (h : matchCaps r t = some caps) :
    ∃ s' n, (n, caps) ∈ matchR (s'.length + 1000) r s' := by
  unfold matchCaps at h
  simp only [Option.map_eq_some'] at h
  obtain ⟨⟨i, n, caps'⟩, hfind, heq⟩ := h
  cases heq
  obtain ⟨s', hmem⟩ := findMatch_mem r t i n caps' hfind
  exact ⟨s', n, hmem⟩

theorem digitVal_le (c : Char) (h : c.isDigit = true) : digitVal c ≤ 9 := by
  unfold Char.isDigit at h
  simp at h
  unfold digitVal
  exact Nat.sub_le_of_le_add h.2

theorem parseNatDigits_fold_lt (cs : List Char) : ∀ (a : Nat),
    (∀ x ∈ cs, x.isDigit = true) →
    cs.foldl (fun a c => 10 * a + digitVal c) a < (a + 1) * 10 ^ cs.length := by
  induction cs with
  | nil => intro a _; simp
  | cons c cs ih =>
    intro a hdig
    have hc : digitVal c ≤ 9 := digitVal_le c (hdig c (List.mem_cons_self _ _))
    have := ih (10 * a + digitVal c) (fun x hx => hdig x (List.mem_cons_of_mem _ hx))
    calc (c :: cs).foldl (fun a c => 10 * a + digitVal c) a
        = cs.foldl (fun a c => 10 * a + digitVal c) (10 * a + digitVal c) := rfl
      _ < (10 * a + digitVal c + 1) * 10 ^ cs.length := this
      _ ≤ (a + 1) * 10 ^ (c :: cs).length := by
          simp only [List.length_cons, pow_succ]
          nlinarith [pow_pos (show (0:Nat) < 10 from by omega) cs.length]

theorem parseNatDigits_lt (cs : List Char) (h : ∀ x ∈ cs, x.isDigit = true) :
    parseNatDigits cs < 10 ^ cs.length := by
  have := parseNatDigits_fold_lt cs 0 h
  simpa [parseNatDigits] using this

theorem produces_rep_cls (p : Char → Bool) (lo hi : Nat) (cs : List Char)
    (h : Produces (.rep (.cls p) lo hi) cs) :
    cs.length ≤ hi ∧ ∀ x ∈ cs, p x = true := by
  obtain ⟨f, s, n, c, hcs, hm⟩ := h
  obtain ⟨hn, hall⟩ := matchR_rep_cls f p lo hi s n c hm
  subst hcs
  refine ⟨?_, hall⟩
  rw [List.length_take]
  omega

set_option maxHeartbeats 1000000 in
theorem monthDaysBefore_bounds (leap : Bool) (m : Int) :
    0 ≤ monthDaysBefore leap m ∧ monthDaysBefore leap m ≤ 335 := by
  unfold monthDaysBefore
  split_ifs <;> omega

theorem dayFromYear_bounds (y : Int) (h1 : -1 ≤ y) (h2 : y ≤ 10008) :
    -720000 ≤ dayFromYear y ∧ dayFromYear y ≤ 3000000 := by
  unfold dayFromYear
  omega

theorem isDateValid_ymd (y m d : Int) (hy1 : 0 ≤ y) (hy2 : y ≤ 9999)
    (hm1 : -1 ≤ m) (hm2 : m ≤ 98) (hd1 : 0 ≤ d) (hd2 : d ≤ 99) :
    isDateValid (.ymd y m d) = true := by
  simp only [isDateValid, decide_eq_true_eq]
  have hadj1 : 0 ≤ adjustedYear y := by unfold adjustedYear; split_ifs <;> omega
  have hadj2 : adjustedYear y ≤ 9999 := by unfold adjustedYear; split_ifs <;> omega
  have hym1 : -1 ≤ adjustedYear y + m / 12 := by omega
  have hym2 : adjustedYear y + m / 12 ≤ 10008 := by omega
  have h1 := dayFromYear_bounds _ hym1 hym2
  have h2 := monthDaysBefore_bounds (isLeapYear (adjustedYear y + m / 12)) (m % 12)
  have hmd : makeDay (adjustedYear y) m d =
      dayFromYear (adjustedYear y + m / 12) +
      monthDaysBefore (isLeapYear (adjustedYear y + m / 12)) (m % 12) + (d - 1) := rfl
  rw [hmd]
  omega

theorem allGroups_dp1 : allGroups datePattern1 =
    [(1, .rep digitE 1 2), (2, monthAlt), (3, .rep digitE 4 4)] := rfl

theorem allGroups_dp2 : allGroups datePattern2 =
    [(1, .rep digitE 1 2), (2, .rep digitE 1 2), (3, .rep digitE 4 4)] := rfl

theorem allGroups_dp3 : allGroups datePattern3 =
    [(1, .rep digitE 4 4), (2, .rep digitE 1 2), (3, .rep digitE 1 2)] := rfl

theorem cap_digit_bound (r : RE) (t : List Char) (caps : Caps) (k lo hi : Nat)
    (hm : matchCaps r t = some caps)
    (hb : ∀ b, (k, b) ∈ allGroups r → b = .rep digitE lo hi) :
    parseNatDigits (getCap caps k) < 10 ^ hi := by
  rcases getCap_mem_or_nil caps k with hnil | hmem
  · rw [hnil]
    have : parseNatDigits [] = 0 := rfl
    rw [this]
    exact pow_pos (by omega) hi
  · obtain ⟨s', n, hmm⟩ := matchCaps_mem r t caps hm
    obtain ⟨b, hbg, hprod⟩ := matchR_caps _ _ _ _ _ hmm k _ hmem
    rw [hb b hbg] at hprod
    obtain ⟨hlen, hdig⟩ := produces_rep_cls _ _ _ _ hprod
    calc parseNatDigits (getCap caps k) < 10 ^ (getCap caps k).length :=
        parseNatDigits_lt _ hdig
      _ ≤ 10 ^ hi := Nat.pow_le_pow_right (by omega) hlen

theorem extractDate_valid (t : List Char) : isDateValid (extractDate t) = true := by
  cases h1 : matchCaps datePattern1 t with
  | some caps =>
    have hgoal : extractDate t = dateFromCaps1 caps := by
      unfold extractDate
      rw [h1]
    rw [hgoal]
    obtain ⟨s', n, hmm⟩ := matchCaps_mem _ _ _ h1
    have hmand : mandatoryGroup datePattern1 2 = true := rfl
    have hex := mandatory_present _ _ _ _ _ hmm 2 hmand
    have hc2 : (2, getCap caps 2) ∈ caps := getCap_mem_of_exists _ _ hex
    obtain ⟨b, hbg, hprod⟩ := matchR_caps _ _ _ _ _ hmm 2 _ hc2
    have hbmonth : b = monthAlt := by
      rw [allGroups_dp1] at hbg
      simp at hbg
      exact hbg
    subst hbmonth
    obtain ⟨f', s'', n'', c'', hcs, hmem''⟩ := hprod
    obtain ⟨m, hm11, hmap⟩ := matchR_monthAlt _ _ _ _ hmem''
    rw [← hcs] at hmap
    unfold dateFromCaps1
    rw [hmap]
    have hd : parseNatDigits (getCap caps 1) < 100 := by
      have := cap_digit_bound datePattern1 t caps 1 1 2 h1 (by
        intro b hb
        rw [allGroups_dp1] at hb
        simp at hb
        exact hb)
      simpa using this
    have hy : parseNatDigits (getCap caps 3) < 10000 := by
      have := cap_digit_bound datePattern1 t caps 3 4 4 h1 (by
        intro b hb
        rw [allGroups_dp1] at hb
        simp at hb
        exact hb)
      simpa using this
    apply isDateValid_ymd
    · exact Int.natCast_nonneg _
    · have : (parseNatDigits (getCap caps 3) : Int) < 10000 := by exact_mod_cast hy
      omega
    · have : (0 : Int) ≤ (m : Int) := Int.natCast_nonneg _
      omega
    · have : (m : Int) ≤ 11 := by exact_mod_cast hm11
      omega
    · exact Int.natCast_nonneg _
    · have : (parseNatDigits (getCap caps 1) : Int) < 100 := by exact_mod_cast hd
      omega
  | none =>
    cases h2 : matchCaps datePattern2 t with
    | some caps =>
      have hgoal : extractDate t = JsDate.ymd (parseNatDigits (getCap caps 3))
          ((parseNatDigits (getCap caps 2) : Int) - 1) (parseNatDigits (getCap caps 1)) := by
        unfold extractDate
        rw [h1, h2]
      rw [hgoal]
      have hd1 : parseNatDigits (getCap caps 1) < 100 := by
        have := cap_digit_bound datePattern2 t caps 1 1 2 h2 (by
          intro b hb
          rw [allGroups_dp2] at hb
          simp at hb
          exact hb)
        simpa using this
      have hd2 : parseNatDigits (getCap caps 2) < 100 := by
        have := cap_digit_bound datePattern2 t caps 2 1 2 h2 (by
          intro b hb
          rw [allGroups_dp2] at hb
          simp at hb
          exact hb)
        simpa using this
      have hd3 : parseNatDigits (getCap caps 3) < 10000 := by
        have := cap_digit_bound datePattern2 t caps 3 4 4 h2 (by
          intro b hb
          rw [allGroups_dp2] at hb
          simp at hb
          exact hb)
        simpa using this
      apply isDateValid_ymd
      · exact Int.natCast_nonneg _
      · have : (parseNatDigits (getCap caps 3) : Int) < 10000 := by exact_mod_cast hd3
        omega
      · have : (0 : Int) ≤ (parseNatDigits (getCap caps 2) : Int) := Int.natCast_nonneg _
        omega
      · have : (parseNatDigits (getCap caps 2) : Int) < 100 := by exact_mod_cast hd2
        omega
      · exact Int.natCast_nonneg _
      · have : (parseNatDigits (getCap caps 1) : Int) < 100 := by exact_mod_cast hd1
        omega
    | none =>
      cases h3 : matchCaps datePattern3 t with
      | some caps =>
        have hgoal : extractDate t = JsDate.ymd (parseNatDigits (getCap caps 1))
            ((parseNatDigits (getCap caps 2) : Int) - 1) (parseNatDigits (getCap caps 3)) := by
          unfold extractDate
          rw [h1, h2, h3]
        rw [hgoal]
        have hd1 : parseNatDigits (getCap caps 1) < 10000 := by
          have := cap_digit_bound datePattern3 t caps 1 4 4 h3 (by
            intro b hb
            rw [allGroups_dp3] at hb
            simp at hb
            exact hb)
          simpa using this
        have hd2 : parseNatDigits (getCap caps 2) < 100 := by
          have := cap_digit_bound datePattern3 t caps 2 1 2 h3 (by
            intro b hb
            rw [allGroups_dp3] at hb
            simp at hb
            exact hb)
          simpa using this
        have hd3 : parseNatDigits (getCap caps 3) < 100 := by
          have := cap_digit_bound datePattern3 t caps 3 1 2 h3 (by
            intro b hb
            rw [allGroups_dp3] at hb
            simp at hb
            exact hb)
          simpa using this
        apply isDateValid_ymd
        · exact Int.natCast_nonneg _
        · have : (parseNatDigits (getCap caps 1) : Int) < 10000 := by exact_mod_cast hd1
          omega
        · have : (0 : Int) ≤ (parseNatDigits (getCap caps 2) : Int) := Int.natCast_nonneg _
          omega
        · have : (parseNatDigits (getCap caps 2) : Int) < 100 := by exact_mod_cast hd2
          omega
        · exact Int.natCast_nonneg _
        · have : (parseNatDigits (getCap caps 3) : Int) < 100 := by exact_mod_cast hd3
          omega
      | none =>
        have hgoal : extractDate t = JsDate.now := by
          unfold extractDate
          rw [h1, h2, h3]
        rw [hgoal]
        rfl


/-- C10: for every input text, the confidence returned by
`parseTransaction` is at least 30: every branch of date extraction
(including the current-date fallback) yields a date passing the non-NaN
validity predicate, so the 30-point date weight is always awarded and 0 is
unreachable. -/
theorem claim10_confidence_at_least_30 (t : String) :
    30 ≤ (parseTransaction t).confidence ∧
    isDateValid (extractDate (jsTrim t.data)) = true := by
  have hv := extractDate_valid (jsTrim t.data)
  refine ⟨?_, hv⟩
  show 30 ≤ calculateConfidence (extractDate (jsTrim t.data))
    (extractAmount (jsTrim t.data)) (extractDescription (jsTrim t.data))
    (extractBalance (jsTrim t.data))
  unfold calculateConfidence
  rw [hv]
  cases ha : amountOkB (extractAmount (jsTrim t.data)) <;>
    cases hd : descriptionOkB (extractDescription (jsTrim t.data)) <;>
    cases hb : balanceOkB (extractBalance (jsTrim t.data)) <;> decide
